import Mathlib

/-!
Verification development for the Bedrock gateway Lambda
(src/lambda_function.py). The Python source is shallowly embedded:
JSON values become the inductive `JVal`, machine byte strings become
`List Nat`, exceptions become `Except`/`Option` results, and the three
source functions `validate_file`, `build_message_content` and the
response-normalizing tail of `lambda_handler` become executable Lean
functions below.
-/

namespace BedrockApi

/-- JSON values as produced by json.loads. JSON numbers are modelled as
integers (no property considered here depends on fractional values);
object fields are kept in order and are assumed to have distinct keys,
as json.loads keeps a single binding per key. -/
inductive JVal where
  | null : JVal
  | bool : Bool → JVal
  | num : Int → JVal
  | str : String → JVal
  | arr : List JVal → JVal
  | obj : List (String × JVal) → JVal

/-- Lookup of a key in the field list of a JSON object (dict access). -/
def jlookup : List (String × JVal) → String → Option JVal
  | [], _ => none
  | (k, v) :: rest, key => if k = key then some v else jlookup rest key

/-- Python truthiness of a JSON value: None, False, 0, empty string,
empty list and empty dict are falsy, everything else is truthy. -/
def truthy : JVal → Bool
  | .null => false
  | .bool b => b
  | .num n => !(n == 0)
  | .str s => !s.data.isEmpty
  | .arr xs => !xs.isEmpty
  | .obj fs => !fs.isEmpty

/-- Truthiness of dict.get results: a missing key (None) is falsy. -/
def truthyOpt : Option JVal → Bool
  | none => false
  | some v => truthy v

/-! ## base64 decoding

The source calls base64.b64decode(data) with the default
validate=False. CPython first encodes the str argument as ASCII
(non-ASCII characters raise) and then runs binascii.a2b_base64 in
non-strict mode: characters outside the base64 alphabet are silently
discarded, a run of padding that completes a quad stops the decode, and
a leftover partial quad at the end raises. The decoder below mirrors
that loop; a raised exception is modelled as `none`. -/

/-- Value of a character in the standard base64 alphabet, none for
characters outside it (they are discarded in non-strict mode). -/
def b64table (c : Char) : Option Nat :=
  if 'A' ≤ c ∧ c ≤ 'Z' then some (c.toNat - 65)
  else if 'a' ≤ c ∧ c ≤ 'z' then some (c.toNat - 97 + 26)
  else if '0' ≤ c ∧ c ≤ '9' then some (c.toNat - 48 + 52)
  else if c = '+' then some 62
  else if c = '/' then some 63
  else none

/-- The binascii.a2b_base64 loop (non-strict mode). State: remaining
characters, quad position (0-3), pending bits, count of padding
characters seen since the last data character, and the output bytes in
reverse order. Bit operations are written arithmetically:
x >> 4 is x / 16, x AND 15 is x % 16, x << 2 is x * 4, and so on. -/
def a2b_loop : List Char → Nat → Nat → Nat → List Nat → Option (List Nat)
  | [], quad_pos, _, _, acc =>
    if quad_pos = 0 then some acc.reverse else none
  | c :: rest, quad_pos, leftchar, pads, acc =>
    if c = '=' then
      if 2 ≤ quad_pos then
        if 4 ≤ quad_pos + (pads + 1) then some acc.reverse
        else a2b_loop rest quad_pos leftchar (pads + 1) acc
      else a2b_loop rest quad_pos leftchar pads acc
    else
      match b64table c with
      | none => a2b_loop rest quad_pos leftchar pads acc
      | some v =>
        match quad_pos with
        | 0 => a2b_loop rest 1 v 0 acc
        | 1 => a2b_loop rest 2 (v % 16) 0 ((leftchar * 4 + v / 16) :: acc)
        | 2 => a2b_loop rest 3 (v % 4) 0 ((leftchar * 16 + v / 4) :: acc)
        | _ => a2b_loop rest 0 0 0 ((leftchar * 64 + v) :: acc)

/-- base64.b64decode on a str argument: the ASCII encoding step
followed by the non-strict binascii loop. `none` models a raised
exception. -/
def b64decode (s : String) : Option (List Nat) :=
  if s.data.all (fun c => decide (c.toNat < 128)) then
    a2b_loop s.data 0 0 0 []
  else none

/-! ## File validation -/

/-- One caller-supplied attachment, the dict read by validate_file and
build_message_content. Fields are modelled at their declared request
schema types (strings); a missing key is `none`, matching dict.get. -/
structure FileData where
  ftype : Option String
  media_type : Option String
  data : Option String
  name : Option String
deriving DecidableEq

/-- SUPPORTED_IMAGE_TYPES with each max_size. 3.75 * 1024 * 1024 is the
Python float 3932160.0, which compares to int byte counts exactly like
the integer 3932160. The unused extensions lists are omitted. -/
def SUPPORTED_IMAGE_TYPES : List (String × Nat) :=
  [("image/png", 3932160), ("image/jpeg", 3932160),
   ("image/gif", 3932160), ("image/webp", 3932160)]

/-- SUPPORTED_DOCUMENT_TYPES with each max_size. 4.5 * 1024 * 1024 is
the Python float 4718592.0, exact as the integer 4718592. -/
def SUPPORTED_DOCUMENT_TYPES : List (String × Nat) :=
  [("application/pdf", 4718592), ("text/csv", 4718592),
   ("application/msword", 4718592),
   ("application/vnd.openxmlformats-officedocument.wordprocessingml.document", 4718592),
   ("application/vnd.ms-excel", 4718592),
   ("application/vnd.openxmlformats-officedocument.spreadsheetml.sheet", 4718592),
   ("text/html", 4718592), ("text/plain", 4718592),
   ("text/markdown", 4718592)]

/-- str() of the possibly missing type field, as interpolated by the
f-string in the unknown-kind error message (None prints as "None"). -/
def pyStrOfOptStr : Option String → String
  | none => "None"
  | some s => s

/-- validate_file from the source: decode the base64 payload (any
exception yields the invalid-base64 message), then check the media
type against the allow-list of the declared kind and the decoded size
against that entry's max_size. Returns the (flag, message) pair. The
source locals media_type, data and file_size are inlined as
fd.media_type.getD "", fd.data.getD "" and decoded_data.length. -/
def validate_file (fd : FileData) : Bool × String :=
  match b64decode (fd.data.getD "") with
  | none => (false, "無効なBase64データです")
  | some decoded_data =>
    if fd.ftype = some "image" then
      match SUPPORTED_IMAGE_TYPES.lookup (fd.media_type.getD "") with
      | none => (false, "サポートされていない画像形式です: " ++ fd.media_type.getD "")
      | some max_size =>
        if decoded_data.length > max_size then
          (false, "画像サイズが制限を超えています（最大3.75MB）")
        else (true, "")
    else if fd.ftype = some "document" then
      match SUPPORTED_DOCUMENT_TYPES.lookup (fd.media_type.getD "") with
      | none => (false, "サポートされていないドキュメント形式です: " ++ fd.media_type.getD "")
      | some max_size =>
        if decoded_data.length > max_size then
          (false, "ドキュメントサイズが制限を超えています（最大4.5MB）")
        else (true, "")
    else (false, "無効なファイルタイプです: " ++ pyStrOfOptStr fd.ftype)

/-! ## Message content builder -/

/-- One content block of the provider payload. Image and document
blocks carry media_type and data verbatim from the attachment dict
(dict.get without default, hence Option). -/
inductive ContentBlock where
  | text : String → ContentBlock
  | image : Option String → Option String → ContentBlock
  | document : Option String → Option String → ContentBlock
deriving DecidableEq

/-- Whether a content block is a text block (item with type text). -/
def isTextBlock : ContentBlock → Bool
  | .text _ => true
  | _ => false

/-- The attachment loop of build_message_content: counters are
incremented and checked against their ceilings before validation, a
ValueError (modelled as .error) aborts the whole build, and a
validated attachment appends its block to the accumulated content. -/
def build_files_loop :
    List FileData → Nat → Nat → List ContentBlock → Except String (List ContentBlock)
  | [], _, _, content => .ok content
  | fd :: rest, image_count, document_count, content =>
    if fd.ftype = some "image" then
      if image_count + 1 > 20 then .error "画像は最大20枚までです"
      else if (validate_file fd).1 = false then .error (validate_file fd).2
      else build_files_loop rest (image_count + 1) document_count
        (content ++ [ContentBlock.image fd.media_type fd.data])
    else if fd.ftype = some "document" then
      if document_count + 1 > 5 then .error "ドキュメントは最大5ファイルまでです"
      else if (validate_file fd).1 = false then .error (validate_file fd).2
      else build_files_loop rest image_count (document_count + 1)
        (content ++ [ContentBlock.document fd.media_type fd.data])
    else
      if (validate_file fd).1 = false then .error (validate_file fd).2
      else build_files_loop rest image_count document_count content

/-- build_message_content from the source: optional leading text block
for a truthy (non-empty) prompt, the attachment loop, and the
post-condition check that prepends the default Japanese instruction
when no text block is present. An absent files argument (None) iterates
like the empty list and is modelled by []. -/
def build_message_content (prompt : String) (files : List FileData) :
    Except String (List ContentBlock) :=
  let content := if prompt = "" then [] else [ContentBlock.text prompt]
  match build_files_loop files 0 0 content with
  | .error e => .error e
  | .ok content =>
    if content.any isTextBlock then .ok content
    else .ok (ContentBlock.text "以下のファイルを分析してください：" :: content)

/-! ## Handler entry checks

lambda_handler parses the request body, rejects a request whose prompt
and files are both falsy (400), rejects a configuration whose model id
is not an inference-profile ARN (500), and otherwise proceeds to build
the message content and invoke the model. The part up to that decision
is modelled here; `.error ()` stands for a Python exception escaping to
the generic except clause (for example body.get on a non-dict body). -/

/-- str.startswith as used on MODEL_ID. -/
def pyStartswith (s p : String) : Bool :=
  p.data.isPrefixOf s.data

/-- List-level substring occurrence for the Python in operator. -/
def listContainsSub : List Char → List Char → Bool
  | [], needle => needle.isEmpty
  | h :: t, needle => needle.isPrefixOf (h :: t) || listContainsSub t needle

/-- The Python expression needle in hay on strings. -/
def pyInStr (needle hay : String) : Bool :=
  listContainsSub hay.data needle.data

/-- Default of os.environ.get("BEDROCK_MODEL_ID", ...): a bare model
name, not an inference-profile ARN. -/
def DEFAULT_MODEL_ID : String := "apac.anthropic.claude-sonnet-4-20250514-v1:0"

/-- The inference-profile check on MODEL_ID from the handler. -/
def isInferenceProfileArn (model_id : String) : Bool :=
  pyStartswith model_id "arn:aws" && pyInStr "inference-profile" model_id

/-- Outcome of the handler before the remote call: an early HTTP
response (status code and the object passed to json.dumps), or the
prompt and files values handed to build_message_content. -/
inductive PreOutcome where
  | http : Nat → JVal → PreOutcome
  | toBuild : JVal → JVal → PreOutcome

/-- The request checks of lambda_handler, in source order: the
missing-input 400 comes first, the configuration 500 second, and only
then does the handler move on to building content from the files. -/
def lambda_handler_pre (model_id : String) (body : JVal) : Except Unit PreOutcome :=
  match body with
  | .obj fs =>
    let prompt := (jlookup fs "prompt").getD (.str "")
    let files := (jlookup fs "files").getD (.arr [])
    if !truthy prompt && !truthy files then
      .ok (.http 400 (.obj [("error", .str "プロンプトまたはファイルが必要です")]))
    else if !isInferenceProfileArn model_id then
      .ok (.http 500 (.obj [("error",
        .str "環境変数 BEDROCK_MODEL_ID に推論プロファイル ARN を設定してください")]))
    else .ok (.toBuild prompt files)
  | _ => .error ()

/-! ## Response normalizer

The tail of lambda_handler probes the parsed response JSON for five
shapes in fixed order. This code runs outside the try block, so a
Python exception here (modelled as `.error ()`) is not converted into
an HTTP error response. -/

/-- dict.get k on a value that must be a dict (AttributeError
otherwise). -/
def pyDictGet : JVal → String → Except Unit (Option JVal)
  | .obj fs, k => .ok (jlookup fs k)
  | _, _ => .error ()

/-- dict.get k default on a value that must be a dict. -/
def pyDictGetD (v : JVal) (k : String) (d : JVal) : Except Unit JVal :=
  match v with
  | .obj fs => .ok ((jlookup fs k).getD d)
  | _ => .error ()

/-- Subscript x[0]: first element of a list, first character of a
string, exception otherwise. -/
def pySubscriptFirst : JVal → Except Unit JVal
  | .arr (x :: _) => .ok x
  | .arr [] => .error ()
  | .str s =>
    match s.data with
    | c :: _ => .ok (.str (String.mk [c]))
    | [] => .error ()
  | _ => .error ()

/-- Subscript x[-1]: last element of a list, last character of a
string, exception otherwise. -/
def pySubscriptLast : JVal → Except Unit JVal
  | .arr xs =>
    match xs.getLast? with
    | some x => .ok x
    | none => .error ()
  | .str s =>
    match s.data.getLast? with
    | some c => .ok (.str (String.mk [c]))
    | none => .error ()
  | _ => .error ()

/-- Python iteration over the content value: lists yield elements,
strings yield one-character strings, dicts yield their keys; other
truthy values raise. -/
def pyIterate : JVal → Except Unit (List JVal)
  | .arr xs => .ok xs
  | .str s => .ok (s.data.map (fun c => .str (String.mk [c])))
  | .obj fs => .ok (fs.map (fun kv => .str kv.1))
  | _ => .error ()

/-- Whether item.get("type") compared equal to the string "text". -/
def isTextTag : Option JVal → Bool
  | some (.str s) => s == "text"
  | _ => false

/-- The text_parts accumulation of the content branch: dict items with
type "text" append item.get("text", "") (the empty string when the
field is missing), other dict items append their text value when it is
truthy, and non-dict items are skipped. -/
def collectTextParts : List JVal → List JVal
  | [] => []
  | item :: rest =>
    match item with
    | .obj fs =>
      if isTextTag (jlookup fs "type") then
        ((jlookup fs "text").getD (.str "")) :: collectTextParts rest
      else
        match jlookup fs "text" with
        | some t => if truthy t then t :: collectTextParts rest else collectTextParts rest
        | none => collectTextParts rest
    | _ => collectTextParts rest

/-- sep.join(parts): concatenation with the separator, raising when a
part is not a string. -/
def pyJoin (sep : String) : List JVal → Except Unit String
  | [] => .ok ""
  | [x] =>
    match x with
    | .str s => .ok s
    | _ => .error ()
  | x :: rest =>
    match x with
    | .str s => (pyJoin sep rest).map (fun r => s ++ sep ++ r)
    | _ => .error ()

/-- The five-shape extraction of the assistant content from the parsed
response JSON (lines 224-244 of the source). The guards are Python
truthiness tests in source order; under a true guard the guarded value
is some v, so Option.getD .null recovers exactly that v. Exception
propagation of the subscript, attribute and join steps is written as
explicit matches on the Except results. -/
def extractAssistantContent (result : JVal) : Except Unit (Option JVal) :=
  match result with
  | .obj fs =>
    if truthyOpt (jlookup fs "messages") then
      match pySubscriptLast ((jlookup fs "messages").getD .null) with
      | .error e => .error e
      | .ok lastMsg => pyDictGet lastMsg "content"
    else if truthyOpt (jlookup fs "completions") then
      match pySubscriptFirst ((jlookup fs "completions").getD .null) with
      | .error e => .error e
      | .ok firstCompletion =>
        match pyDictGetD firstCompletion "message" (.obj []) with
        | .error e => .error e
        | .ok m =>
          match pyDictGet m "content" with
          | .error e => .error e
          | .ok mc =>
            if truthyOpt mc then .ok mc
            else
              match pyDictGetD firstCompletion "data" (.obj []) with
              | .error e => .error e
              | .ok d => pyDictGet d "content"
    else if truthyOpt (jlookup fs "completion") then .ok (jlookup fs "completion")
    else if truthyOpt (jlookup fs "modelOutputs") then
      match pySubscriptFirst ((jlookup fs "modelOutputs").getD .null) with
      | .error e => .error e
      | .ok firstOut => pyDictGet firstOut "content"
    else if truthyOpt (jlookup fs "content") then
      match pyIterate ((jlookup fs "content").getD .null) with
      | .error e => .error e
      | .ok items =>
        if (collectTextParts items).isEmpty then .ok none
        else
          match pyJoin " " (collectTextParts items) with
          | .error e => .error e
          | .ok s => .ok (some (.str s))
    else .ok none
  | _ => .error ()

/-- The 200 response built after a successful remote call: statusCode
200 and the object handed to json.dumps, with a missing assistant
content serialized as null. -/
def handler_success_response (result : JVal) : Except Unit (Nat × JVal) :=
  (extractAssistantContent result).map
    (fun ac => (200, .obj [("response", ac.getD .null)]))

/-! ## Proof-support definitions -/

/-- Whether an Except value is a success. -/
def exceptIsOk : Except ε α → Bool
  | .ok _ => true
  | .error _ => false

/-- Number of attachments declaring the image kind. -/
def countImgs (files : List FileData) : Nat :=
  files.countP (fun f => decide (f.ftype = some "image"))

/-- Number of attachments declaring the document kind. -/
def countDocs (files : List FileData) : Nat :=
  files.countP (fun f => decide (f.ftype = some "document"))

/-- A small valid png attachment (decodes to the single byte 65). -/
def validPng : FileData :=
  ⟨some "image", some "image/png", some "QQ==", none⟩

/-- A small valid plain-text document attachment. -/
def validTxt : FileData :=
  ⟨some "document", some "text/plain", some "QQ==", none⟩

/-- Base64 text decoding to exactly 4718592 zero bytes (4.5 MiB). -/
def docLimitData : String := String.mk (List.replicate (4 * 1572864) 'A')

/-- Base64 text decoding to 4718593 bytes, one over the document cap. -/
def docOverData : String :=
  String.mk (List.replicate (4 * 1572864) 'A' ++ ['Q', 'Q', '=', '='])

/-- Base64 text decoding to exactly 3932160 zero bytes (3.75 MiB). -/
def imgLimitData : String := String.mk (List.replicate (4 * 1310720) 'A')

/-- Base64 text decoding to 3932161 bytes, one over the image cap. -/
def imgOverData : String :=
  String.mk (List.replicate (4 * 1310720) 'A' ++ ['Q', 'Q', '=', '='])

/-- A pdf attachment whose payload decodes to exactly 4.5 MiB. -/
def docAtLimit : FileData :=
  ⟨some "document", some "application/pdf", some docLimitData, none⟩

/-- A pdf attachment whose payload decodes to 4.5 MiB plus one byte. -/
def docOverLimit : FileData :=
  ⟨some "document", some "application/pdf", some docOverData, none⟩

/-- A png attachment whose payload decodes to exactly 3.75 MiB. -/
def imgAtLimit : FileData :=
  ⟨some "image", some "image/png", some imgLimitData, none⟩

/-- A png attachment whose payload decodes to 3.75 MiB plus one byte. -/
def imgOverLimit : FileData :=
  ⟨some "image", some "image/png", some imgOverData, none⟩

/-- A png attachment whose data consists of characters outside the
base64 alphabet. -/
def badAlphabetPng : FileData :=
  ⟨some "image", some "image/png", some "!!!!", none⟩

/-- Join of a list of strings with a separator, specification side. -/
def joinSep (sep : String) : List String → String
  | [] => ""
  | [s] => s
  | s :: t :: rest => s ++ sep ++ joinSep sep (t :: rest)

/-- A content item whose text field, when present, is a string (the
request shapes the claims quantify over). -/
def textFieldOk : JVal → Prop
  | .obj fs => ∀ v, jlookup fs "text" = some v → ∃ s, v = JVal.str s
  | _ => True

/-- Specification-side text parts of the content branch, mirroring the
amended claim wording: an item tagged type "text" contributes its text
field (the empty string when the field is missing), any other dict
item contributes its text field when that is a non-empty string. -/
def contentTextPartsSpec : List JVal → List String
  | [] => []
  | item :: rest =>
    match item with
    | .obj fs =>
      if isTextTag (jlookup fs "type") then
        (match jlookup fs "text" with
         | some (.str t) => t
         | _ => "") :: contentTextPartsSpec rest
      else
        match jlookup fs "text" with
        | some (.str t) =>
          if t.data.isEmpty then contentTextPartsSpec rest
          else t :: contentTextPartsSpec rest
        | _ => contentTextPartsSpec rest
    | _ => contentTextPartsSpec rest

/-- Modelled from the claim wording of C7, before amendment: the text
fields of the items whose type equals "text" (items without a text
field have none to return), or, for items failing that tag, a
non-empty text field; joined with a single space; absent when no item
contributes. -/
def claimedContentText (items : List JVal) : Option String :=
  let parts := items.filterMap (fun item =>
    match item with
    | .obj fs =>
      if isTextTag (jlookup fs "type") then
        match jlookup fs "text" with
        | some (.str t) => some t
        | _ => none
      else
        match jlookup fs "text" with
        | some (.str t) => if t.data.isEmpty then none else some t
        | _ => none
    | _ => none)
  if parts.isEmpty then none else some (joinSep " " parts)

/-- Fields of the first completion in the C6 counterexample: a present
but empty message.content next to a non-empty data.content. -/
def cexCompletionFields : List (String × JVal) :=
  [("message", .obj [("content", .str "")]), ("data", .obj [("content", .str "x")])]

/-- C6 counterexample response JSON. -/
def cex_completions : JVal := .obj [("completions", .arr [.obj cexCompletionFields])]

/-- Content items of the C7 counterexample: a type "text" item without
a text field before a type "text" item with text "a". -/
def cexContentItems : List JVal :=
  [.obj [("type", .str "text")], .obj [("type", .str "text"), ("text", .str "a")]]

/-- C7 counterexample response JSON. -/
def cex_content : JVal := .obj [("content", .arr cexContentItems)]

/-! ## General lemmas about the embedded functions -/

theorem validate_file_true_kind (fd : FileData) (h : (validate_file fd).1 = true) :
    fd.ftype = some "image" ∨ fd.ftype = some "document" := by
  by_cases hi : fd.ftype = some "image"
  · exact Or.inl hi
  by_cases hd : fd.ftype = some "document"
  · exact Or.inr hd
  exfalso
  unfold validate_file at h
  rcases hdec : b64decode (fd.data.getD "") with _ | bs <;> rw [hdec] at h <;>
    simp [hi, hd] at h

theorem build_files_loop_any_text (files : List FileData) :
    ∀ (ic dc : Nat) (acc cs : List ContentBlock),
      build_files_loop files ic dc acc = .ok cs →
      cs.any isTextBlock = acc.any isTextBlock := by
  induction files with
  | nil =>
    intro ic dc acc cs h
    unfold build_files_loop at h
    injection h with h
    rw [h]
  | cons fd rest ih =>
    intro ic dc acc cs h
    unfold build_files_loop at h
    by_cases hi : fd.ftype = some "image"
    · rw [if_pos hi] at h
      by_cases hc : ic + 1 > 20
      · rw [if_pos hc] at h; exact (Except.noConfusion h)
      rw [if_neg hc] at h
      by_cases hv : (validate_file fd).1 = false
      · rw [if_pos hv] at h; exact (Except.noConfusion h)
      rw [if_neg hv] at h
      rw [ih _ _ _ _ h, List.any_append]
      simp [isTextBlock]
    rw [if_neg hi] at h
    by_cases hd : fd.ftype = some "document"
    · rw [if_pos hd] at h
      by_cases hc : dc + 1 > 5
      · rw [if_pos hc] at h; exact (Except.noConfusion h)
      rw [if_neg hc] at h
      by_cases hv : (validate_file fd).1 = false
      · rw [if_pos hv] at h; exact (Except.noConfusion h)
      rw [if_neg hv] at h
      rw [ih _ _ _ _ h, List.any_append]
      simp [isTextBlock]
    rw [if_neg hd] at h
    by_cases hv : (validate_file fd).1 = false
    · rw [if_pos hv] at h; exact (Except.noConfusion h)
    rw [if_neg hv] at h
    exact ih _ _ _ _ h

theorem build_files_loop_ok (files : List FileData) :
    ∀ (ic dc : Nat) (acc : List ContentBlock),
      (∀ f ∈ files, (validate_file f).1 = true) →
      ic + countImgs files ≤ 20 → dc + countDocs files ≤ 5 →
      exceptIsOk (build_files_loop files ic dc acc) = true := by
  induction files with
  | nil =>
    intro ic dc acc _ _ _
    rfl
  | cons fd rest ih =>
    intro ic dc acc hval himg hdoc
    have hv : (validate_file fd).1 = true := hval fd (List.mem_cons_self fd rest)
    have hrest : ∀ f ∈ rest, (validate_file f).1 = true :=
      fun f hf => hval f (List.mem_cons_of_mem fd hf)
    unfold build_files_loop
    rcases validate_file_true_kind fd hv with hi | hd
    · have hcnt : countImgs (fd :: rest) = countImgs rest + 1 := by
        simp [countImgs, List.countP_cons, hi]
      have hcntd : countDocs (fd :: rest) = countDocs rest := by
        simp [countDocs, List.countP_cons, hi]
      rw [if_pos hi, if_neg (by rw [hcnt] at himg; omega),
        if_neg (by rw [hv]; exact fun h => Bool.noConfusion h)]
      exact ih (ic + 1) dc _ hrest (by rw [hcnt] at himg; omega)
        (by rw [hcntd] at hdoc; omega)
    · have hni : ¬ fd.ftype = some "image" := by rw [hd]; simp
      have hcnt : countDocs (fd :: rest) = countDocs rest + 1 := by
        simp [countDocs, List.countP_cons, hd]
      have hcnti : countImgs (fd :: rest) = countImgs rest := by
        simp [countImgs, List.countP_cons, hd]
      rw [if_neg hni, if_pos hd, if_neg (by rw [hcnt] at hdoc; omega),
        if_neg (by rw [hv]; exact fun h => Bool.noConfusion h)]
      exact ih ic (dc + 1) _ hrest (by rw [hcnti] at himg; omega)
        (by rw [hcnt] at hdoc; omega)

theorem build_files_loop_append (pre : List FileData) :
    ∀ (rest : List FileData) (ic dc : Nat) (acc : List ContentBlock),
      (∀ f ∈ pre, (validate_file f).1 = true) →
      ic + countImgs pre ≤ 20 → dc + countDocs pre ≤ 5 →
      ∃ acc2, build_files_loop (pre ++ rest) ic dc acc =
        build_files_loop rest (ic + countImgs pre) (dc + countDocs pre) acc2 := by
  induction pre with
  | nil =>
    intro rest ic dc acc _ _ _
    refine ⟨acc, ?_⟩
    simp [countImgs, countDocs]
  | cons fd pre ih =>
    intro rest ic dc acc hval himg hdoc
    have hv : (validate_file fd).1 = true := hval fd (List.mem_cons_self fd pre)
    have hpre : ∀ f ∈ pre, (validate_file f).1 = true :=
      fun f hf => hval f (List.mem_cons_of_mem fd hf)
    rw [List.cons_append]
    simp only [build_files_loop]
    rcases validate_file_true_kind fd hv with hi | hd
    · have hcnt : countImgs (fd :: pre) = countImgs pre + 1 := by
        simp [countImgs, List.countP_cons, hi]
      have hcntd : countDocs (fd :: pre) = countDocs pre := by
        simp [countDocs, List.countP_cons, hi]
      rw [if_pos hi, if_neg (by rw [hcnt] at himg; omega),
        if_neg (by rw [hv]; exact fun h => Bool.noConfusion h)]
      rcases ih rest (ic + 1) dc (acc ++ [ContentBlock.image fd.media_type fd.data])
          hpre (by rw [hcnt] at himg; omega) (by rw [hcntd] at hdoc; omega) with ⟨acc2, h2⟩
      refine ⟨acc2, ?_⟩
      rw [hcnt, hcntd,
        show ic + (countImgs pre + 1) = ic + 1 + countImgs pre from by omega]
      exact h2
    · have hni : ¬ fd.ftype = some "image" := by rw [hd]; simp
      have hcnt : countDocs (fd :: pre) = countDocs pre + 1 := by
        simp [countDocs, List.countP_cons, hd]
      have hcnti : countImgs (fd :: pre) = countImgs pre := by
        simp [countImgs, List.countP_cons, hd]
      rw [if_neg hni, if_pos hd, if_neg (by rw [hcnt] at hdoc; omega),
        if_neg (by rw [hv]; exact fun h => Bool.noConfusion h)]
      rcases ih rest ic (dc + 1) (acc ++ [ContentBlock.document fd.media_type fd.data])
          hpre (by rw [hcnti] at himg; omega) (by rw [hcnt] at hdoc; omega) with ⟨acc2, h2⟩
      refine ⟨acc2, ?_⟩
      rw [hcnt, hcnti,
        show dc + (countDocs pre + 1) = dc + 1 + countDocs pre from by omega]
      exact h2

/-! ## Claim theorems -/

/-- C1: for every non-empty prompt and an empty attachment list,
build_message_content returns exactly one Text block holding the
prompt and nothing else. -/
theorem build_single_text_block (p : String) (hp : p ≠ "") :
    build_message_content p [] = .ok [ContentBlock.text p] := by
  unfold build_message_content build_files_loop
  rw [if_neg hp]
  simp [isTextBlock]

theorem build_single_text_block_witness :
    build_message_content "hello" [] = .ok [ContentBlock.text "hello"] :=
  build_single_text_block "hello" (by decide)

/-- C2: every content list returned successfully by
build_message_content contains a text block, and with an empty prompt
the default Japanese instruction block sits at position 0. -/
theorem build_content_contains_text :
    (∀ (p : String) (files : List FileData) (cs : List ContentBlock),
        build_message_content p files = .ok cs → cs.any isTextBlock = true) ∧
    (∀ (files : List FileData) (cs : List ContentBlock),
        build_message_content "" files = .ok cs →
        cs.head? = some (ContentBlock.text "以下のファイルを分析してください：")) := by
  constructor
  · intro p files cs h
    simp only [build_message_content] at h
    split at h
    · exact (Except.noConfusion h)
    split at h
    · rename_i hmid
      injection h with h
      rw [← h]
      exact hmid
    · injection h with h
      rw [← h]
      simp [isTextBlock]
  · intro files cs h
    simp only [build_message_content] at h
    split at h
    · exact (Except.noConfusion h)
    rename_i mid heq
    have hmid : mid.any isTextBlock = false := by
      rw [build_files_loop_any_text files 0 0 [] mid heq]
      rfl
    rw [hmid] at h
    simp only [Bool.false_eq_true, if_false] at h
    injection h with h
    rw [← h]
    rfl

theorem build_content_contains_text_witness :
    ([ContentBlock.text "hi"].any isTextBlock = true) ∧
    ([ContentBlock.text "以下のファイルを分析してください：",
      ContentBlock.image (some "image/png") (some "QQ==")].head? =
        some (ContentBlock.text "以下のファイルを分析してください：")) :=
  ⟨build_content_contains_text.1 "hi" [] _ rfl,
   build_content_contains_text.2 [validPng] _ rfl⟩

/-- C3: with all attachments valid, builds stay within the ceilings of
20 images and 5 documents (so a list of exactly 20 valid images or 5
valid documents succeeds), while reaching a 21st image or a 6th
document aborts with the corresponding error no matter what follows
it, so no later attachment is processed and no content list is
returned. -/
theorem build_attachment_count_boundary :
    (∀ (p : String) (files : List FileData),
        (∀ f ∈ files, (validate_file f).1 = true) →
        countImgs files ≤ 20 → countDocs files ≤ 5 →
        exceptIsOk (build_message_content p files) = true) ∧
    (∀ (p : String) (pre : List FileData) (f : FileData) (post : List FileData),
        (∀ g ∈ pre, (validate_file g).1 = true) →
        countImgs pre = 20 → countDocs pre ≤ 5 → f.ftype = some "image" →
        build_message_content p (pre ++ f :: post) = .error "画像は最大20枚までです") ∧
    (∀ (p : String) (pre : List FileData) (f : FileData) (post : List FileData),
        (∀ g ∈ pre, (validate_file g).1 = true) →
        countDocs pre = 5 → countImgs pre ≤ 20 → f.ftype = some "document" →
        build_message_content p (pre ++ f :: post) = .error "ドキュメントは最大5ファイルまでです") := by
  refine ⟨?_, ?_, ?_⟩
  · intro p files hval himg hdoc
    have hok := build_files_loop_ok files 0 0
      (if p = "" then [] else [ContentBlock.text p]) hval (by omega) (by omega)
    simp only [build_message_content]
    split
    · rename_i e heq
      rw [heq] at hok
      exact hok
    · split <;> rfl
  · intro p pre f post hval himg hdoc hf
    simp only [build_message_content]
    rcases build_files_loop_append pre (f :: post) 0 0
        (if p = "" then [] else [ContentBlock.text p]) hval (by omega) (by omega)
      with ⟨acc2, h2⟩
    rw [h2, himg]
    simp [build_files_loop, hf]
  · intro p pre f post hval hdoc himg hf
    simp only [build_message_content]
    rcases build_files_loop_append pre (f :: post) 0 0
        (if p = "" then [] else [ContentBlock.text p]) hval (by omega) (by omega)
      with ⟨acc2, h2⟩
    rw [h2, hdoc]
    simp [build_files_loop, hf]

theorem build_attachment_count_boundary_witness :
    exceptIsOk (build_message_content "p" (List.replicate 20 validPng)) = true ∧
    exceptIsOk (build_message_content "p" (List.replicate 5 validTxt)) = true ∧
    build_message_content "p" (List.replicate 20 validPng ++ validPng :: []) =
      .error "画像は最大20枚までです" ∧
    build_message_content "p" (List.replicate 5 validTxt ++ validTxt :: []) =
      .error "ドキュメントは最大5ファイルまでです" :=
  ⟨build_attachment_count_boundary.1 "p" (List.replicate 20 validPng)
      (by decide) (by decide) (by decide),
   build_attachment_count_boundary.1 "p" (List.replicate 5 validTxt)
      (by decide) (by decide) (by decide),
   build_attachment_count_boundary.2.1 "p" (List.replicate 20 validPng) validPng []
      (by decide) (by decide) (by decide) rfl,
   build_attachment_count_boundary.2.2 "p" (List.replicate 5 validTxt) validTxt []
      (by decide) (by decide) (by decide) rfl⟩


/-! ## Lemmas about base64 decoding of the boundary payloads -/

theorem a2b_loop_quadA (l : List Char) (acc : List Nat) :
    a2b_loop ('A' :: 'A' :: 'A' :: 'A' :: l) 0 0 0 acc =
      a2b_loop l 0 0 0 (0 :: 0 :: 0 :: acc) := rfl

theorem a2b_loop_replicateA (k : Nat) :
    ∀ (rest : List Char) (acc : List Nat),
      a2b_loop (List.replicate (4 * k) 'A' ++ rest) 0 0 0 acc =
        a2b_loop rest 0 0 0 (List.replicate (3 * k) 0 ++ acc) := by
  induction k with
  | zero =>
    intro rest acc
    simp
  | succ k ih =>
    intro rest acc
    have hrep : List.replicate (4 * (k + 1)) 'A' =
        'A' :: 'A' :: 'A' :: 'A' :: List.replicate (4 * k) 'A' := by
      rw [show 4 * (k + 1) = 4 + 4 * k from by omega, List.replicate_add]
      rfl
    have hacc : List.replicate (3 * (k + 1)) 0 ++ acc =
        List.replicate (3 * k) 0 ++ (0 :: 0 :: 0 :: acc) := by
      rw [show 3 * (k + 1) = 3 * k + 3 from by omega, List.replicate_add,
        List.append_assoc]
      rfl
    rw [hrep, List.cons_append, List.cons_append, List.cons_append,
      List.cons_append, a2b_loop_quadA, ih, hacc]

theorem replicateA_ascii (n : Nat) :
    (List.replicate n 'A').all (fun c => decide (c.toNat < 128)) = true := by
  rw [List.all_eq_true]
  intro x hx
  rw [List.eq_of_mem_replicate hx]
  rfl

theorem b64decode_repA (k : Nat) :
    b64decode (String.mk (List.replicate (4 * k) 'A')) =
      some (List.replicate (3 * k) 0) := by
  unfold b64decode
  rw [show (String.mk (List.replicate (4 * k) 'A')).data =
    List.replicate (4 * k) 'A' from rfl]
  rw [replicateA_ascii, if_pos rfl,
    ← List.append_nil (List.replicate (4 * k) 'A'), a2b_loop_replicateA]
  simp [a2b_loop, List.reverse_replicate]

theorem b64decode_repA_overflow (k : Nat) :
    b64decode (String.mk (List.replicate (4 * k) 'A' ++ ['Q', 'Q', '=', '='])) =
      some (List.replicate (3 * k) 0 ++ [65]) := by
  unfold b64decode
  rw [show (String.mk (List.replicate (4 * k) 'A' ++ ['Q', 'Q', '=', '='])).data =
    List.replicate (4 * k) 'A' ++ ['Q', 'Q', '=', '='] from rfl]
  rw [List.all_append, replicateA_ascii,
    show (['Q', 'Q', '=', '='].all (fun c => decide (c.toNat < 128))) = true from rfl]
  rw [if_pos (show ((true && true) = true) from rfl), a2b_loop_replicateA]
  rw [show ∀ acc : List Nat, a2b_loop ['Q', 'Q', '=', '='] 0 0 0 acc =
    some (65 :: acc).reverse from fun acc => rfl]
  simp [List.reverse_replicate]

theorem lookup_const (mt : String) (c : Nat) :
    ∀ (l : List (String × Nat)) (m : Nat), (∀ p ∈ l, p.2 = c) →
      l.lookup mt = some m → m = c := by
  intro l
  induction l with
  | nil =>
    intro m _ h
    simp [List.lookup] at h
  | cons p rest ih =>
    rcases p with ⟨k, v⟩
    intro m hall h
    simp only [List.lookup] at h
    split at h
    · injection h with h
      rw [← h]
      exact hall (k, v) (List.mem_cons_self _ _)
    · exact ih m (fun q hq => hall q (List.mem_cons_of_mem _ hq)) h

/-- C4: with an allow-listed media type, a document passes at a decoded
size of exactly 4718592 bytes (4.5 MiB) and fails with the document
size message one byte over; an image passes at exactly 3932160 bytes
(3.75 MiB) and fails with the image size message one byte over. -/
theorem validate_file_size_boundary :
    (∀ (f : FileData) (bs : List Nat),
        f.ftype = some "document" →
        (SUPPORTED_DOCUMENT_TYPES.lookup (f.media_type.getD "")).isSome = true →
        b64decode (f.data.getD "") = some bs → bs.length = 4718592 →
        validate_file f = (true, "")) ∧
    (∀ (f : FileData) (bs : List Nat),
        f.ftype = some "document" →
        (SUPPORTED_DOCUMENT_TYPES.lookup (f.media_type.getD "")).isSome = true →
        b64decode (f.data.getD "") = some bs → bs.length = 4718593 →
        validate_file f = (false, "ドキュメントサイズが制限を超えています（最大4.5MB）")) ∧
    (∀ (f : FileData) (bs : List Nat),
        f.ftype = some "image" →
        (SUPPORTED_IMAGE_TYPES.lookup (f.media_type.getD "")).isSome = true →
        b64decode (f.data.getD "") = some bs → bs.length = 3932160 →
        validate_file f = (true, "")) ∧
    (∀ (f : FileData) (bs : List Nat),
        f.ftype = some "image" →
        (SUPPORTED_IMAGE_TYPES.lookup (f.media_type.getD "")).isSome = true →
        b64decode (f.data.getD "") = some bs → bs.length = 3932161 →
        validate_file f = (false, "画像サイズが制限を超えています（最大3.75MB）")) := by
  have hdocv : ∀ p ∈ SUPPORTED_DOCUMENT_TYPES, p.2 = 4718592 := by decide
  have himgv : ∀ p ∈ SUPPORTED_IMAGE_TYPES, p.2 = 3932160 := by decide
  refine ⟨?_, ?_, ?_, ?_⟩
  · intro f bs hft hmt hdec hlen
    have hni : ¬ f.ftype = some "image" := by rw [hft]; simp
    rcases hl : SUPPORTED_DOCUMENT_TYPES.lookup (f.media_type.getD "") with _ | m
    · rw [hl] at hmt
      exact absurd hmt (by simp)
    have hm := lookup_const (f.media_type.getD "") 4718592 SUPPORTED_DOCUMENT_TYPES m hdocv hl
    unfold validate_file
    rw [hdec]
    simp [hni, hft, hl, hlen, hm]
  · intro f bs hft hmt hdec hlen
    have hni : ¬ f.ftype = some "image" := by rw [hft]; simp
    rcases hl : SUPPORTED_DOCUMENT_TYPES.lookup (f.media_type.getD "") with _ | m
    · rw [hl] at hmt
      exact absurd hmt (by simp)
    have hm := lookup_const (f.media_type.getD "") 4718592 SUPPORTED_DOCUMENT_TYPES m hdocv hl
    unfold validate_file
    rw [hdec]
    simp [hni, hft, hl, hlen, hm]
  · intro f bs hft hmt hdec hlen
    rcases hl : SUPPORTED_IMAGE_TYPES.lookup (f.media_type.getD "") with _ | m
    · rw [hl] at hmt
      exact absurd hmt (by simp)
    have hm := lookup_const (f.media_type.getD "") 3932160 SUPPORTED_IMAGE_TYPES m himgv hl
    unfold validate_file
    rw [hdec]
    simp [hft, hl, hlen, hm]
  · intro f bs hft hmt hdec hlen
    rcases hl : SUPPORTED_IMAGE_TYPES.lookup (f.media_type.getD "") with _ | m
    · rw [hl] at hmt
      exact absurd hmt (by simp)
    have hm := lookup_const (f.media_type.getD "") 3932160 SUPPORTED_IMAGE_TYPES m himgv hl
    unfold validate_file
    rw [hdec]
    simp [hft, hl, hlen, hm]

theorem validate_file_size_boundary_witness :
    validate_file docAtLimit = (true, "") ∧
    validate_file docOverLimit = (false, "ドキュメントサイズが制限を超えています（最大4.5MB）") ∧
    validate_file imgAtLimit = (true, "") ∧
    validate_file imgOverLimit = (false, "画像サイズが制限を超えています（最大3.75MB）") :=
  ⟨validate_file_size_boundary.1 docAtLimit (List.replicate (3 * 1572864) 0)
      rfl (by decide) (b64decode_repA 1572864) (by rw [List.length_replicate]),
   validate_file_size_boundary.2.1 docOverLimit (List.replicate (3 * 1572864) 0 ++ [65])
      rfl (by decide) (b64decode_repA_overflow 1572864)
      (by rw [List.length_append, List.length_replicate]; norm_num),
   validate_file_size_boundary.2.2.1 imgAtLimit (List.replicate (3 * 1310720) 0)
      rfl (by decide) (b64decode_repA 1310720) (by rw [List.length_replicate]),
   validate_file_size_boundary.2.2.2 imgOverLimit (List.replicate (3 * 1310720) 0 ++ [65])
      rfl (by decide) (b64decode_repA_overflow 1310720)
      (by rw [List.length_append, List.length_replicate]; norm_num)⟩

/-! ## C5: the invalid-base64 error -/

theorem string_append_ne (pfx x tgt : String) (i : Nat) (hi : i < pfx.data.length)
    (hne : pfx.data[i]? ≠ tgt.data[i]?) : pfx ++ x ≠ tgt := by
  intro h
  apply hne
  have hdata := congrArg String.data h
  rw [String.data_append] at hdata
  rw [← hdata, List.getElem?_append_left hi]

/-- C5 counterexample: a data field made of characters outside the
base64 alphabet does not produce the invalid-base64 error; the lenient
decoder discards such characters and the attachment validates
successfully. -/
theorem validate_file_b64_claim_cex :
    validate_file badAlphabetPng = (true, "") ∧
    ("!!!!".data.all (fun c => (b64table c).isNone && !(c = '='))) = true ∧
    ((true, "") : Bool × String) ≠ (false, "無効なBase64データです") :=
  ⟨rfl, by decide, by decide⟩

/-- C5 amended: validate_file yields the invalid-base64 message exactly
when the lenient base64 decode raises, that is on non-ASCII data or on
a leftover partial quad after discarding non-alphabet characters; no
other input produces that message. -/
theorem validate_file_invalid_b64_iff (fd : FileData) :
    validate_file fd = (false, "無効なBase64データです") ↔
      b64decode (fd.data.getD "") = none := by
  constructor
  · intro h
    unfold validate_file at h
    split at h
    · assumption
    · split at h
      · split at h
        · exact absurd (congrArg Prod.snd h)
            (string_append_ne "サポートされていない画像形式です: " _ _ 0 (by decide) (by decide))
        · split at h
          · exact absurd (congrArg Prod.snd h) (by decide)
          · exact absurd (congrArg Prod.fst h) (by decide)
      · split at h
        · split at h
          · exact absurd (congrArg Prod.snd h)
              (string_append_ne "サポートされていないドキュメント形式です: " _ _ 0 (by decide) (by decide))
          · split at h
            · exact absurd (congrArg Prod.snd h) (by decide)
            · exact absurd (congrArg Prod.fst h) (by decide)
        · exact absurd (congrArg Prod.snd h)
            (string_append_ne "無効なファイルタイプです: " _ _ 3 (by decide) (by decide))
  · intro h
    unfold validate_file
    rw [h]



/-! ## C8, C9, C10: handler-level behavior -/

/-- C8: whenever extraction of the assistant content succeeds with no
value (no recognized shape matched, or the matched value resolved to
nothing), the handler answers HTTP 200 with body containing response
null; a normalization gap is not reported as an error. -/
theorem normalization_gap_returns_null (result : JVal)
    (h : extractAssistantContent result = .ok none) :
    handler_success_response result = .ok (200, .obj [("response", .null)]) := by
  unfold handler_success_response
  rw [h]
  rfl

theorem normalization_gap_returns_null_witness :
    handler_success_response (.obj [("id", .str "abc")]) =
      .ok (200, .obj [("response", .null)]) :=
  normalization_gap_returns_null (.obj [("id", .str "abc")]) rfl

/-- C9 counterexample: with the default bare model name configured (not
an inference-profile ARN), a request whose prompt and files are both
empty is rejected by the earlier missing-input check with HTTP 400 —
not with the 500 configuration error the claim demands for every
request. -/
theorem handler_config_claim_cex :
    isInferenceProfileArn DEFAULT_MODEL_ID = false ∧
    lambda_handler_pre DEFAULT_MODEL_ID
        (.obj [("prompt", .str ""), ("files", .arr [])]) =
      .ok (.http 400 (.obj [("error", .str "プロンプトまたはファイルが必要です")])) ∧
    (400 : Nat) ≠ 500 :=
  ⟨rfl, rfl, by decide⟩

/-- C9 amended: when the configured model identifier is not an
inference-profile ARN, every request that supplies a truthy prompt or
truthy files fails with the HTTP 500 configuration error before any
file is validated or the remote service contacted (the outcome is an
early http response, uniform in the files contents); a request with
neither is rejected 400 by the missing-input check first. -/
theorem handler_config_error_500 (model_id : String) (fs : List (String × JVal))
    (hmodel : isInferenceProfileArn model_id = false)
    (hreq : (truthy ((jlookup fs "prompt").getD (.str "")) ||
             truthy ((jlookup fs "files").getD (.arr []))) = true) :
    lambda_handler_pre model_id (.obj fs) =
      .ok (.http 500 (.obj [("error",
        .str "環境変数 BEDROCK_MODEL_ID に推論プロファイル ARN を設定してください")])) := by
  have hcond : (!truthy ((jlookup fs "prompt").getD (.str "")) &&
      !truthy ((jlookup fs "files").getD (.arr []))) = false := by
    rcases hp : truthy ((jlookup fs "prompt").getD (.str "")) <;>
      rcases hf : truthy ((jlookup fs "files").getD (.arr [])) <;>
        rw [hp, hf] at hreq <;> simp_all
  simp [lambda_handler_pre, hcond, hmodel]

theorem handler_config_error_500_witness :
    lambda_handler_pre DEFAULT_MODEL_ID (.obj [("prompt", .str "hi")]) =
      .ok (.http 500 (.obj [("error",
        .str "環境変数 BEDROCK_MODEL_ID に推論プロファイル ARN を設定してください")])) :=
  handler_config_error_500 DEFAULT_MODEL_ID [("prompt", .str "hi")] rfl rfl

/-- C10: a body carrying an empty-string prompt and an empty files list
is rejected with HTTP 400 and the missing-input message, identically to
a body with both fields absent, whatever model is configured. -/
theorem handler_empty_prompt_files_400 (model_id : String) :
    lambda_handler_pre model_id
        (.obj [("prompt", .str ""), ("files", .arr [])]) =
      .ok (.http 400 (.obj [("error", .str "プロンプトまたはファイルが必要です")])) ∧
    lambda_handler_pre model_id (.obj []) =
      .ok (.http 400 (.obj [("error", .str "プロンプトまたはファイルが必要です")])) :=
  ⟨rfl, rfl⟩

/-! ## C6, C7: response extraction counterexamples -/

/-- C6 counterexample: the first completion carries message.content as
the present (empty) string, yet extraction returns data.content "x"
because the Python or-expression falls through on a falsy value, not
only on an absent one. -/
theorem extract_completions_claim_cex :
    extractAssistantContent cex_completions = .ok (some (JVal.str "x")) ∧
    (jlookup cexCompletionFields "message").getD (.obj []) =
      .obj [("content", JVal.str "")] ∧
    JVal.str "x" ≠ JVal.str "" := by
  refine ⟨rfl, rfl, ?_⟩
  intro h
  injection h with h
  exact absurd h (by decide)

/-- C7 counterexample: on a type "text" item lacking a text field the
code appends the default empty string, so the join acquires a leading
space: extraction yields " a" where the claim describes "a". -/
theorem extract_content_claim_cex :
    extractAssistantContent cex_content = .ok (some (JVal.str " a")) ∧
    claimedContentText cexContentItems = some "a" ∧
    JVal.str " a" ≠ JVal.str "a" := by
  refine ⟨rfl, rfl, ?_⟩
  intro h
  injection h with h
  exact absurd h (by decide)


/-! ## C6, C7: response extraction theorems -/

theorem pyJoin_strs (sep : String) :
    ∀ (parts : List String), pyJoin sep (parts.map JVal.str) = .ok (joinSep sep parts) := by
  intro parts
  induction parts with
  | nil => rfl
  | cons s rest ih =>
    cases rest with
    | nil => rfl
    | cons t rest2 =>
      simp only [List.map_cons] at ih ⊢
      simp only [pyJoin, joinSep]
      rw [ih]
      rfl

theorem collectTextParts_eq_spec :
    ∀ (items : List JVal), (∀ i ∈ items, textFieldOk i) →
      collectTextParts items = (contentTextPartsSpec items).map JVal.str := by
  intro items
  induction items with
  | nil => intro _; rfl
  | cons item rest ih =>
    intro hok
    have hrest : ∀ i ∈ rest, textFieldOk i :=
      fun i hi => hok i (List.mem_cons_of_mem _ hi)
    have hitem : textFieldOk item := hok item (List.mem_cons_self _ _)
    cases item with
    | null => simpa [collectTextParts, contentTextPartsSpec] using ih hrest
    | bool b => simpa [collectTextParts, contentTextPartsSpec] using ih hrest
    | num n => simpa [collectTextParts, contentTextPartsSpec] using ih hrest
    | str s => simpa [collectTextParts, contentTextPartsSpec] using ih hrest
    | arr xs => simpa [collectTextParts, contentTextPartsSpec] using ih hrest
    | obj fs =>
      simp only [collectTextParts, contentTextPartsSpec]
      by_cases htag : isTextTag (jlookup fs "type") = true
      · rw [if_pos htag, if_pos htag]
        rcases hft : jlookup fs "text" with _ | v
        · simp [ih hrest]
        · rcases hitem v hft with ⟨s, hs⟩
          subst hs
          simp [ih hrest]
      · rw [if_neg htag, if_neg htag]
        rcases hft : jlookup fs "text" with _ | v
        · exact ih hrest
        · rcases hitem v hft with ⟨s, hs⟩
          subst hs
          by_cases hemp : s.data.isEmpty = true
          · simp [truthy, hemp, ih hrest]
          · simp [truthy, hemp, ih hrest]

/-- C6 amended: with messages falsy and completions a non-empty list of
dicts, extraction returns the first completion message.content when
that value is truthy, and otherwise falls back to data.content — the
fallback also fires when message.content is present but falsy (for
example the empty string), not only when it is absent; the scenario
input with only data.content extracts "answer". -/
theorem extract_completions_fallback :
    (∀ (fs cf mf : List (String × JVal)) (cs : List JVal),
        truthyOpt (jlookup fs "messages") = false →
        jlookup fs "completions" = some (.arr (.obj cf :: cs)) →
        (jlookup cf "message").getD (.obj []) = .obj mf →
        truthyOpt (jlookup mf "content") = true →
        extractAssistantContent (.obj fs) = .ok (jlookup mf "content")) ∧
    (∀ (fs cf mf df : List (String × JVal)) (cs : List JVal),
        truthyOpt (jlookup fs "messages") = false →
        jlookup fs "completions" = some (.arr (.obj cf :: cs)) →
        (jlookup cf "message").getD (.obj []) = .obj mf →
        truthyOpt (jlookup mf "content") = false →
        (jlookup cf "data").getD (.obj []) = .obj df →
        extractAssistantContent (.obj fs) = .ok (jlookup df "content")) ∧
    extractAssistantContent (.obj [("completions",
        .arr [.obj [("data", .obj [("content", .str "answer")])]])]) =
      .ok (some (.str "answer")) := by
  refine ⟨?_, ?_, rfl⟩
  · intro fs cf mf cs h1 hc hm hmc
    have htrc : truthyOpt (some (JVal.arr (JVal.obj cf :: cs))) = true := rfl
    simp [extractAssistantContent, h1, hc, htrc, hm, hmc,
      pySubscriptFirst, pyDictGetD, pyDictGet]
  · intro fs cf mf df cs h1 hc hm hmc hd
    have htrc : truthyOpt (some (JVal.arr (JVal.obj cf :: cs))) = true := rfl
    simp [extractAssistantContent, h1, hc, htrc, hm, hmc, hd,
      pySubscriptFirst, pyDictGetD, pyDictGet]

theorem extract_completions_fallback_witness :
    extractAssistantContent (.obj [("completions",
        .arr [.obj [("message", .obj [("content", .str "m")]),
          ("data", .obj [("content", .str "d")])]])]) = .ok (some (JVal.str "m")) ∧
    extractAssistantContent cex_completions = .ok (some (JVal.str "x")) :=
  ⟨extract_completions_fallback.1
      [("completions", .arr [.obj [("message", .obj [("content", .str "m")]),
        ("data", .obj [("content", .str "d")])]])]
      [("message", .obj [("content", .str "m")]), ("data", .obj [("content", .str "d")])]
      [("content", .str "m")] [] rfl rfl rfl rfl,
   extract_completions_fallback.2.1 [("completions", .arr [.obj cexCompletionFields])]
      cexCompletionFields [("content", .str "")] [("content", .str "x")] [] rfl rfl rfl rfl rfl⟩

/-- C7 amended: with the four earlier shapes falsy and content a list
of items whose text fields are strings, extraction returns the
space-join of the parts collected in order — a type "text" item
contributes its text field, defaulting to the empty string when the
field is missing, and any other dict item contributes its text field
when that is a non-empty string; when no part is collected the result
is absent, and that is not an error. -/
theorem extract_content_join (fs : List (String × JVal)) (items : List JVal)
    (h1 : truthyOpt (jlookup fs "messages") = false)
    (h2 : truthyOpt (jlookup fs "completions") = false)
    (h3 : truthyOpt (jlookup fs "completion") = false)
    (h4 : truthyOpt (jlookup fs "modelOutputs") = false)
    (h5 : jlookup fs "content" = some (.arr items))
    (h6 : ∀ i ∈ items, textFieldOk i) :
    extractAssistantContent (.obj fs) = .ok
      (match contentTextPartsSpec items with
       | [] => none
       | parts => some (.str (joinSep " " parts))) := by
  have hcollect := collectTextParts_eq_spec items h6
  rcases items with _ | ⟨it, its⟩
  · have htrc : truthyOpt (some (JVal.arr ([] : List JVal))) = false := rfl
    simp [extractAssistantContent, h1, h2, h3, h4, h5, htrc, contentTextPartsSpec]
  · have htrc : truthyOpt (some (JVal.arr (it :: its))) = true := rfl
    rcases hspec : contentTextPartsSpec (it :: its) with _ | ⟨p, ps⟩ <;>
      rw [hspec] at hcollect
    · simp [extractAssistantContent, h1, h2, h3, h4, h5, htrc, pyIterate,
        hcollect, hspec]
    · have hj := pyJoin_strs " " (p :: ps)
      simp only [List.map_cons] at hj
      simp [extractAssistantContent, h1, h2, h3, h4, h5, htrc, pyIterate,
        hcollect, hspec, hj]


theorem extract_content_join_witness :
    extractAssistantContent (.obj [("content",
        .arr [.obj [("type", .str "text"), ("text", .str "hi there")]])]) =
      .ok (some (JVal.str "hi there")) :=
  extract_content_join
    [("content", .arr [.obj [("type", .str "text"), ("text", .str "hi there")]])]
    [.obj [("type", .str "text"), ("text", .str "hi there")]]
    rfl rfl rfl rfl rfl
    (by
      intro i hi
      rw [List.mem_singleton] at hi
      subst hi
      intro v hv
      have hv2 : some (JVal.str "hi there") = some v := hv
      injection hv2 with h
      exact ⟨"hi there", h.symm⟩)

end BedrockApi
